import Mathlib

/-!
Verification model of the home-office-tracker program (src/main.rs).

Calendar dates (chrono `NaiveDate` values) are modelled as natural numbers
counting days in the proleptic Gregorian calendar from the epoch 0000-03-01
(the standard civil-calendar day-number algorithm).  `toNum` converts a
(year, month, day) triple to its day number and `fromNum` converts back;
`succ_opt` models `NaiveDate::succ_opt`, which returns the next day except at
the maximum representable date (chrono's `NaiveDate::MAX`, December 31 of
year 262142), where it returns none.
-/

/-- Leap-year test of the proleptic Gregorian calendar (as used by chrono). -/
def isLeap (y : Nat) : Bool :=
  y % 4 == 0 && (y % 100 != 0 || y % 400 == 0)

/-- Number of days in month `m` of year `y` (months numbered 1..12). -/
def daysInMonth (y m : Nat) : Nat :=
  if m = 2 then (if isLeap y then 29 else 28)
  else if m = 4 ∨ m = 6 ∨ m = 9 ∨ m = 11 then 30
  else 31

/-- Largest year of a representable chrono `NaiveDate` (`NaiveDate::MAX` is
December 31, 262142). -/
def maxYear : Nat := 262142

/-- A (year, month, day) triple that denotes a real calendar day representable
as a chrono `NaiveDate` (with nonnegative year). -/
def validYmd (y m d : Nat) : Prop :=
  1 ≤ y ∧ y ≤ maxYear ∧ 1 ≤ m ∧ m ≤ 12 ∧ 1 ≤ d ∧ d ≤ daysInMonth y m

instance (y m d : Nat) : Decidable (validYmd y m d) := by
  unfold validYmd; infer_instance

/-- Day number of the calendar day (y, m, d): days elapsed since 0000-03-01,
by the standard civil-calendar formula. -/
def toNum (y m d : Nat) : Nat :=
  let yy := if m ≤ 2 then y - 1 else y
  let mp := if m ≤ 2 then m + 9 else m - 3
  365 * yy + yy / 4 - yy / 100 + yy / 400 + (153 * mp + 2) / 5 + d - 1

/-- Day number of chrono's `NaiveDate::MAX` (262142-12-31). -/
def maxDate : Nat := toNum maxYear 12 31

/-- Inverse of `toNum`: the (year, month, day) triple of a day number, by the
standard civil-calendar algorithm. -/
def fromNum (n : Nat) : Nat × Nat × Nat :=
  let era := n / 146097
  let doe := n % 146097
  let yoe := (doe - doe / 1460 + doe / 36524 - doe / 146096) / 365
  let doy := doe - (365 * yoe + yoe / 4 - yoe / 100)
  let mp := (5 * doy + 2) / 153
  let d := doy - (153 * mp + 2) / 5 + 1
  let m := if mp < 10 then mp + 3 else mp - 9
  let y := era * 400 + yoe + (if m ≤ 2 then 1 else 0)
  (y, m, d)

/-- `NaiveDate::succ_opt`: the next calendar day, or none at `NaiveDate::MAX`. -/
def succ_opt (d : Nat) : Option Nat :=
  if d < maxDate then some (d + 1) else none

/-- Zero-pad a number to two digits (chrono format specifiers %m, %d). -/
def pad2 (n : Nat) : String :=
  if n < 10 then "0" ++ toString n else toString n

/-- Zero-pad a number to four digits (chrono format specifier %Y). -/
def pad4 (n : Nat) : String :=
  if n < 10 then "000" ++ toString n
  else if n < 100 then "00" ++ toString n
  else if n < 1000 then "0" ++ toString n
  else toString n

/-- Format a day number as `YYYY-MM-DD` (the program's only date format,
chrono format string "%Y-%m-%d"). -/
def fmtDate (n : Nat) : String :=
  pad4 (fromNum n).1 ++ "-" ++ pad2 (fromNum n).2.1 ++ "-" ++ pad2 (fromNum n).2.2

/-!
Executable string primitives over character lists, modelling the Rust string
operations the program uses (`str::split`, `str::trim`, digit parsing).  The
Lean standard library versions are defined by well-founded recursion on byte
positions and do not reduce inside the kernel, so the model re-implements
them structurally.
-/

/-- ASCII whitespace test (the characters `str::trim` strips in this
program's inputs). -/
def isWsChar (c : Char) : Bool :=
  c = ' ' || c = '\t' || c = '\n' || c = '\r'

/-- Split a character list on the two-character separator "::", modelling
Rust `str::split("::")`: always at least one (possibly empty) piece. -/
def splitOnDColon : List Char → List (List Char)
  | [] => [[]]
  | ':' :: ':' :: cs => [] :: splitOnDColon cs
  | c :: cs =>
    match splitOnDColon cs with
    | [] => [[c]]
    | t :: ts => (c :: t) :: ts

/-- Split a character list on a one-character separator, modelling Rust
`str::split` with a single-character pattern. -/
def splitOnChar (sep : Char) : List Char → List (List Char)
  | [] => [[]]
  | c :: cs =>
    match splitOnChar sep cs with
    | [] => [[c]]
    | t :: ts => if c = sep then [] :: t :: ts else (c :: t) :: ts

/-- Strip leading and trailing whitespace, modelling Rust `str::trim`. -/
def trimChars (l : List Char) : List Char :=
  ((l.dropWhile isWsChar).reverse.dropWhile isWsChar).reverse

/-- Numeric value of an ASCII digit character. -/
def digitVal (c : Char) : Option Nat :=
  if '0' ≤ c ∧ c ≤ '9' then some (c.toNat - 48) else none

/-- Parse a nonempty all-digit character list as a natural number, modelling
the numeric-field parsing inside chrono's date parser. -/
def digitsToNat : List Char → Option Nat
  | [] => none
  | l => l.foldl
      (fun acc c =>
        match acc, digitVal c with
        | some n, some d => some (n * 10 + d)
        | _, _ => none)
      (some 0)

/-- `str::split("::")` on a `String`, producing `String` pieces. -/
def strSplitDColon (s : String) : List String :=
  (splitOnDColon s.data).map String.mk

/-!
The date-range parser `parse_dates_or_default` (src/main.rs:85-123).

Each token is parsed by `NaiveDate::parse_from_str(tok.trim(), "%Y-%m-%d")`,
falling back to format "%d.%m.%Y", and `.unwrap()` panics if both fail.  A
two-token input walks forward from the first endpoint with
`succ_opt().unwrap()` until it reaches the second; the walk is modelled by
`walkAux` whose fuel is the exact number of `succ_opt` calls available
before `succ_opt` returns none (the distance to `NaiveDate::MAX`), so fuel
exhaustion is precisely the `.unwrap()`-on-none panic of the source.
-/

/-- Outcome of a Rust computation that can panic: a normal result or a panic
with its message. -/
inductive Outcome where
  | ok (dates : List Nat)
  | panic (msg : String)
deriving DecidableEq

instance {ε α : Type} [DecidableEq ε] [DecidableEq α] : DecidableEq (Except ε α) := by
  intro a b
  cases a <;> cases b
  case error.error x y =>
    exact if h : x = y then isTrue (by rw [h]) else isFalse (by intro hc; cases hc; exact h rfl)
  case ok.ok x y =>
    exact if h : x = y then isTrue (by rw [h]) else isFalse (by intro hc; cases hc; exact h rfl)
  case error.ok x y => exact isFalse (by intro hc; cases hc)
  case ok.error x y => exact isFalse (by intro hc; cases hc)

/-- Panic message of `.unwrap()` on the none result of `succ_opt` at
`NaiveDate::MAX` (src/main.rs:115). -/
def succPanicMsg : String := "called Option::unwrap() on a None value"

/-- Panic message of `.unwrap()` on a failed chrono date parse
(src/main.rs:99). -/
def dateParsePanicMsg : String := "called Result::unwrap() on an Err value: ParseError"

/-- Parse one token in format `YYYY-MM-DD` (chrono "%Y-%m-%d"): three
dash-separated numeric fields forming a real, representable calendar date. -/
def parseYmdFormat (s : String) : Option Nat :=
  match splitOnChar '-' s.data with
  | [ys, ms, ds] =>
    match digitsToNat ys, digitsToNat ms, digitsToNat ds with
    | some y, some m, some d => if validYmd y m d then some (toNum y m d) else none
    | _, _, _ => none
  | _ => none

/-- Parse one token in format `DD.MM.YYYY` (chrono "%d.%m.%Y"): three
dot-separated numeric fields forming a real, representable calendar date. -/
def parseDmyFormat (s : String) : Option Nat :=
  match splitOnChar '.' s.data with
  | [ds, ms, ys] =>
    match digitsToNat ys, digitsToNat ms, digitsToNat ds with
    | some y, some m, some d => if validYmd y m d then some (toNum y m d) else none
    | _, _, _ => none
  | _ => none

/-- Parse one token of the range input (src/main.rs:97-101): trim it, try
`YYYY-MM-DD`, fall back to `DD.MM.YYYY`, and panic if both formats fail. -/
def parseToken (s : String) : Except String Nat :=
  match parseYmdFormat (String.mk (trimChars s.data)) with
  | some d => Except.ok d
  | none =>
    match parseDmyFormat (String.mk (trimChars s.data)) with
    | some d => Except.ok d
    | none => Except.error dateParsePanicMsg

/-- Parse every token left to right (the eager `.map(...).collect()` of
src/main.rs:95-102); the first failing token's panic aborts the whole
computation. -/
def parseTokens : List String → Except String (List Nat)
  | [] => Except.ok []
  | t :: rest =>
    match parseToken t with
    | Except.error m => Except.error m
    | Except.ok d =>
      match parseTokens rest with
      | Except.error m => Except.error m
      | Except.ok ds => Except.ok (d :: ds)

/-- The range walk of src/main.rs:110-116: push the current date, stop when
it equals the second endpoint, otherwise step to `succ_opt().unwrap()`.  The
fuel counts the `succ_opt` calls available before the current date reaches
`maxDate`; at fuel 0 the next `succ_opt` returns none and `.unwrap()`
panics. -/
def walkAux : Nat → Nat → Nat → List Nat → Outcome
  | 0, current, lastD, acc =>
    if current = lastD then Outcome.ok (acc ++ [current]) else Outcome.panic succPanicMsg
  | fuel + 1, current, lastD, acc =>
    if current = lastD then Outcome.ok (acc ++ [current])
    else walkAux fuel (current + 1) lastD (acc ++ [current])

/-- The loop of src/main.rs:108-117, starting from the first endpoint with
an empty result vector; `maxDate - firstD` is the number of `succ_opt`
steps available. -/
def walkFrom (firstD lastD : Nat) : Outcome :=
  walkAux (maxDate - firstD) firstD lastD []

/-- `parse_dates_or_default` (src/main.rs:85-123).  Absent input yields
today's date; otherwise the input splits on "::", every token is parsed
(panicking on malformed tokens), one token is returned as a singleton, two
tokens start the inclusive forward walk, and any other token count panics
with "Invalid date range". -/
def parse_dates_or_default (today : Nat) (input : Option String) : Outcome :=
  match input with
  | none => Outcome.ok [today]
  | some i =>
    match parseTokens (strSplitDColon i) with
    | Except.error msg => Outcome.panic msg
    | Except.ok v =>
      match v with
      | [d] => Outcome.ok [d]
      | [firstD, lastD] => walkFrom firstD lastD
      | _ => Outcome.panic ("Invalid date range")

/-!
Export compression and rendering (`get_export`, src/main.rs:302-355), the
date-store model, and the TUI interaction state (`AppState`,
src/main.rs:365-433 together with the event handling of `run_tui`).

The SQLite table `home_office_days` is a set of unique `YYYY-MM-DD` text
keys; it is modelled as a duplicate-free list of day numbers kept in
ascending order, matching what `SELECT date ... ORDER BY date` returns.
-/

/-- The scan loop of `get_export` (src/main.rs:325-338) after its first row
seeded the current run (start, e): a row equal to `e.succ_opt()` extends the
run, any other row closes it and starts a new one; the final run is closed
after the scan. -/
def compressGo (start e : Nat) : List Nat → List (Nat × Nat)
  | [] => [(start, e)]
  | d :: rest =>
    if d = e + 1 then compressGo start d rest
    else (start, e) :: compressGo d d rest

/-- The compression step of `get_export` (src/main.rs:317-338): empty row
list yields no ranges, otherwise the scan starts at the first row. -/
def compressRanges : List Nat → List (Nat × Nat)
  | [] => []
  | r :: rest => compressGo r r rest

/-- Day-by-day expansion of a range: all days from its start to its end
inclusive. -/
def expandRange (p : Nat × Nat) : List Nat :=
  List.range' p.1 (p.2 + 1 - p.1)

/-- Two ranges separated by a gap of at least two days (non-overlapping and
non-adjacent). -/
def gapGe2 (p q : Nat × Nat) : Prop :=
  p.2 + 2 ≤ q.1

instance (p q : Nat × Nat) : Decidable (gapGe2 p q) := by
  unfold gapGe2; infer_instance

/-- Rendering of one compressed range (src/main.rs:342-352): a single-day
range as `YYYY-MM-DD`, a multi-day range as `YYYY-MM-DD :: YYYY-MM-DD`. -/
def fmtRange (p : Nat × Nat) : String :=
  if p.1 = p.2 then fmtDate p.1 else fmtDate p.1 ++ " :: " ++ fmtDate p.2

/-- The rendering loop of `get_export` (src/main.rs:340-352): push the
rendered string of every range onto the result vector. -/
def renderRanges (ranges : List (Nat × Nat)) : List String :=
  List.foldl (fun result p => result ++ [fmtRange p]) [] ranges

/-- `get_export` (src/main.rs:302-355) applied to the ascending rows read
from the store: compress the rows into ranges, then render every range. -/
def get_export (rows : List Nat) : List String :=
  renderRanges (compressRanges rows)

/-- SQLite error codes distinguished by `add_date` (src/main.rs:209). -/
inductive SqlErrorCode where
  | constraintViolation
  | other
deriving DecidableEq

/-- `INSERT INTO home_office_days (date) VALUES (?1)` on the primary-key
column: fails with a constraint violation when the key is already present,
otherwise inserts it (the model keeps the list ascending, as `SELECT ...
ORDER BY date` observes it). -/
def sqlInsert (store : List Nat) (key : Nat) : Except SqlErrorCode (List Nat) :=
  if key ∈ store then Except.error SqlErrorCode.constraintViolation
  else Except.ok (List.orderedInsert (fun a b => a ≤ b) key store)

/-- What `add_date` reports to the user: the success message or the error
message (src/main.rs:206, 214). -/
inductive AddReport where
  | added
  | errored
deriving DecidableEq

/-- `add_date` (src/main.rs:200-219): insert the date; a constraint
violation (duplicate key) is reported as success with the store untouched;
any other insert error is reported but the function still returns Ok. -/
def add_date (store : List Nat) (d : Nat) : List Nat × AddReport :=
  match sqlInsert store d with
  | Except.ok s2 => (s2, AddReport.added)
  | Except.error e =>
    if e = SqlErrorCode.constraintViolation then (store, AddReport.added)
    else (store, AddReport.errored)

/-- `add_dates` (src/main.rs:193-198): insert every date in order. -/
def add_dates (store : List Nat) (ds : List Nat) : List Nat :=
  List.foldl (fun s d => (add_date s d).1) store ds

/-- `remove_date` (src/main.rs:277-289): `DELETE FROM home_office_days WHERE
date = ?1` removes the key if present; deleting an absent key succeeds. -/
def remove_date (store : List Nat) (d : Nat) : List Nat :=
  store.filter (fun x => x != d)

/-- `remove_dates` (src/main.rs:270-275): delete every date in order. -/
def remove_dates (store : List Nat) (ds : List Nat) : List Nat :=
  List.foldl remove_date store ds

/-- The input mode of the TUI edit buffer (src/main.rs:365-369). -/
inductive InputMode where
  | add
  | remove
deriving DecidableEq

/-- `AppState` (src/main.rs:371-377); the `conn` field is the modelled store
contents. -/
structure AppState where
  store : List Nat
  dates : List String
  selected_index : Nat
  input_box : Option String
  input_mode : InputMode
deriving DecidableEq

/-- `AppState::update` (src/main.rs:391-394): re-read the rendered export
from the store.  It does not touch `selected_index`. -/
def AppState.update (st : AppState) : AppState :=
  { st with dates := get_export st.store }

/-- `AppState::add_string` (src/main.rs:412-415): parse the buffer text,
add every resulting date, refresh the view.  The `.unwrap()` lets a parse
panic propagate and crash the session, modelled as the error case. -/
def AppState.add_string (st : AppState) (input : String) (today : Nat) :
    Except String AppState :=
  match parse_dates_or_default today (some input) with
  | Outcome.panic msg => Except.error msg
  | Outcome.ok ds => Except.ok (AppState.update { st with store := add_dates st.store ds })

/-- `AppState::remove_selected_string` (src/main.rs:417-420): parse the
buffer text, delete every resulting date, refresh the view; a parse panic
propagates. -/
def AppState.remove_selected_string (st : AppState) (input : String) (today : Nat) :
    Except String AppState :=
  match parse_dates_or_default today (some input) with
  | Outcome.panic msg => Except.error msg
  | Outcome.ok ds => Except.ok (AppState.update { st with store := remove_dates st.store ds })

/-- `AppState::move_selection_up` (src/main.rs:422-426). -/
def AppState.move_selection_up (st : AppState) : AppState :=
  if st.selected_index > 0 then { st with selected_index := st.selected_index - 1 } else st

/-- `AppState::move_selection_down` (src/main.rs:428-432); `saturating_sub`
is natural-number subtraction. -/
def AppState.move_selection_down (st : AppState) : AppState :=
  if st.selected_index < st.dates.length - 1 then
    { st with selected_index := st.selected_index + 1 }
  else st

/-- The Enter handler of `run_tui` in editing mode (src/main.rs:510-521):
`take_input` removes the buffer, a blank buffer then just continues the
loop, otherwise the buffer is confirmed through `add_string` or
`remove_selected_string` (whose parse panics crash the session). -/
def confirmEdit (today : Nat) (st : AppState) : Except String AppState :=
  match st.input_box with
  | none => Except.ok st
  | some input =>
    let st2 : AppState := { st with input_box := none }
    if (trimChars input.data).isEmpty then Except.ok st2
    else if st2.input_mode = InputMode.add then AppState.add_string st2 input today
    else AppState.remove_selected_string st2 input today

/-- The selected index lies within the bounds the specification states:
at most `len - 1`, which is 0 on an empty view. -/
def selInBounds (st : AppState) : Prop :=
  st.selected_index ≤ st.dates.length - 1

instance (st : AppState) : Decidable (selInBounds st) :=
  Nat.decLe st.selected_index (st.dates.length - 1)

/-!
Helper lemmas.
-/

/-- No month has more than 31 days. -/
theorem daysInMonth_le_31 (y m : Nat) : daysInMonth y m ≤ 31 := by
  unfold daysInMonth
  split_ifs <;> omega

/-- The day number of maxDate, fixed once for arithmetic below. -/
theorem maxDate_eq : maxDate = 95745704 := by decide

/-- Every representable calendar day has a day number at most `maxDate`. -/
theorem toNum_le_maxDate (y m d : Nat) (hy1 : 1 ≤ y) (hy : y ≤ maxYear)
    (hm1 : 1 ≤ m) (hm : m ≤ 12) (hd1 : 1 ≤ d) (hd : d ≤ 31) :
    toNum y m d ≤ maxDate := by
  rw [maxDate_eq]
  unfold maxYear at hy
  by_cases h2 : m ≤ 2
  · simp only [toNum, if_pos h2]
    omega
  · simp only [toNum, if_neg h2]
    omega

/-- A token accepted by the `YYYY-MM-DD` format denotes a representable
date. -/
theorem parseYmdFormat_le (s : String) (n : Nat) (h : parseYmdFormat s = some n) :
    n ≤ maxDate := by
  unfold parseYmdFormat at h
  split at h <;> try (cases h)
  split at h <;> try (cases h)
  split at h <;> try (cases h)
  rename_i hv
  obtain ⟨h1, h2, h3, h4, h5, h6⟩ := hv
  exact toNum_le_maxDate _ _ _ h1 h2 h3 h4 h5 (le_trans h6 (daysInMonth_le_31 _ _))

/-- A token accepted by the `DD.MM.YYYY` format denotes a representable
date. -/
theorem parseDmyFormat_le (s : String) (n : Nat) (h : parseDmyFormat s = some n) :
    n ≤ maxDate := by
  unfold parseDmyFormat at h
  split at h <;> try (cases h)
  split at h <;> try (cases h)
  split at h <;> try (cases h)
  rename_i hv
  obtain ⟨h1, h2, h3, h4, h5, h6⟩ := hv
  exact toNum_le_maxDate _ _ _ h1 h2 h3 h4 h5 (le_trans h6 (daysInMonth_le_31 _ _))

/-- Every successfully parsed token is a representable date. -/
theorem parseToken_le (s : String) (n : Nat) (h : parseToken s = Except.ok n) :
    n ≤ maxDate := by
  unfold parseToken at h
  split at h
  · rename_i d hy
    injection h with h
    exact h ▸ parseYmdFormat_le _ d hy
  · split at h
    · rename_i d hd
      injection h with h
      exact h ▸ parseDmyFormat_le _ d hd
    · cases h

/-- Successful token-list parsing preserves the token count. -/
theorem parseTokens_length (ts : List String) (v : List Nat)
    (h : parseTokens ts = Except.ok v) : v.length = ts.length := by
  induction ts generalizing v with
  | nil =>
    injection h with h
    subst h
    rfl
  | cons t rest ih =>
    unfold parseTokens at h
    split at h <;> try (cases h)
    split at h <;> try (cases h)
    rename_i ds hds
    simp [ih ds hds]

/-- The walk stops immediately when the two endpoints are equal, whatever
fuel is left. -/
theorem walkAux_self (fuel current : Nat) (acc : List Nat) :
    walkAux fuel current current acc = Outcome.ok (acc ++ [current]) := by
  cases fuel <;> simp [walkAux]

/-- With enough fuel the walk from `current` to `current + n` returns the
inclusive ascending day sequence. -/
theorem walkAux_ok : ∀ (n fuel current : Nat) (acc : List Nat), n ≤ fuel →
    walkAux fuel current (current + n) acc
      = Outcome.ok (acc ++ List.range' current (n + 1)) := by
  intro n
  induction n with
  | zero =>
    intro fuel current acc _
    cases fuel <;> simp [walkAux, List.range']
  | succ n ih =>
    intro fuel current acc hfuel
    cases fuel with
    | zero => omega
    | succ f =>
      have hne : current ≠ current + (n + 1) := by omega
      have h2 : walkAux (f + 1) current (current + (n + 1)) acc
          = walkAux f (current + 1) (current + (n + 1)) (acc ++ [current]) := by
        simp [walkAux, hne]
      have h1 : current + (n + 1) = current + 1 + n := by omega
      rw [h2, h1, ih f (current + 1) (acc ++ [current]) (by omega)]
      rw [List.range'_succ current (n + 1) 1]
      simp

/-- When the second endpoint lies strictly before the first, the walk never
meets it: it consumes all fuel and ends in the `succ_opt` unwrap panic,
whatever the fuel. -/
theorem walkAux_reversed : ∀ (fuel current lastD : Nat) (acc : List Nat), lastD < current →
    walkAux fuel current lastD acc = Outcome.panic succPanicMsg := by
  intro fuel
  induction fuel with
  | zero =>
    intro current lastD acc hlt
    have hne : current ≠ lastD := by omega
    simp [walkAux, hne]
  | succ f ih =>
    intro current lastD acc hlt
    have hne : current ≠ lastD := by omega
    simp only [walkAux, if_neg hne]
    exact ih (current + 1) lastD (acc ++ [current]) (by omega)

/-- A normal result of the walk is never the empty sequence. -/
theorem walkAux_ok_ne_nil : ∀ (fuel current lastD : Nat) (acc out : List Nat),
    walkAux fuel current lastD acc = Outcome.ok out → out ≠ [] := by
  intro fuel
  induction fuel with
  | zero =>
    intro current lastD acc out h
    by_cases he : current = lastD
    · simp only [walkAux, if_pos he] at h
      injection h with h
      subst h
      simp
    · simp [walkAux, he] at h
  | succ f ih =>
    intro current lastD acc out h
    by_cases he : current = lastD
    · simp only [walkAux, if_pos he] at h
      injection h with h
      subst h
      simp
    · simp only [walkAux, if_neg he] at h
      exact ih (current + 1) lastD (acc ++ [current]) out h

/-- Invariant of the compression scan: with a current run (start, e) with
`start ≤ e` and strictly ascending remaining rows starting above `e`, the
produced ranges expand exactly to the days from `start` to `e` followed by
the remaining rows, every range is well-formed, consecutive ranges are
separated by at least two days, and the first range starts at `start`. -/
theorem compressGo_spec :
    ∀ (rest : List Nat) (start e : Nat), start ≤ e →
      List.Chain' (fun a b => a < b) (e :: rest) →
      ((compressGo start e rest).flatMap expandRange
          = List.range' start (e + 1 - start) ++ rest)
      ∧ (∀ p ∈ compressGo start e rest, p.1 ≤ p.2)
      ∧ List.Chain' gapGe2 (compressGo start e rest)
      ∧ ∃ e2 tl, compressGo start e rest = (start, e2) :: tl := by
  intro rest
  induction rest with
  | nil =>
    intro start e hse _
    refine ⟨by simp [compressGo, expandRange], ?_, ?_, e, [], rfl⟩
    · intro p hp
      simp [compressGo] at hp
      subst hp
      exact hse
    · simp only [compressGo]
      exact List.chain'_singleton _
  | cons d rest ih =>
    intro start e hse hch
    rw [List.chain'_cons] at hch
    obtain ⟨hed, hch⟩ := hch
    by_cases hstep : d = e + 1
    · subst hstep
      have hgo : compressGo start e ((e + 1) :: rest) = compressGo start (e + 1) rest := by
        simp [compressGo]
      obtain ⟨ha, hb, hc, e2, tl, heq⟩ := ih start (e + 1) (by omega) hch
      rw [hgo]
      refine ⟨?_, hb, hc, e2, tl, heq⟩
      rw [ha, show e + 1 + 1 - start = (e + 1 - start) + 1 by omega,
        List.range'_concat, show start + 1 * (e + 1 - start) = e + 1 by omega]
      simp
    · have hd2 : e + 2 ≤ d := by omega
      obtain ⟨ha, hb, hc, e2, tl, heq⟩ := ih d d (le_refl d) hch
      have hgo : compressGo start e (d :: rest) = (start, e) :: compressGo d d rest := by
        simp [compressGo, hstep]
      rw [hgo]
      refine ⟨?_, ?_, ?_, e, compressGo d d rest, rfl⟩
      · rw [List.flatMap_cons, ha, show d + 1 - d = 1 by omega]
        simp [expandRange, List.range']
      · intro p hp
        rcases List.mem_cons.mp hp with hp | hp
        · subst hp
          exact hse
        · exact hb p hp
      · rw [heq, List.chain'_cons]
        exact ⟨hd2, heq ▸ hc⟩

/-- The rendering loop of `get_export` renders the ranges in order: it is
the elementwise map of `fmtRange`. -/
theorem renderRanges_eq_map (rs : List (Nat × Nat)) : renderRanges rs = rs.map fmtRange := by
  have haux : ∀ (l : List (Nat × Nat)) (acc : List String),
      List.foldl (fun result p => result ++ [fmtRange p]) acc l = acc ++ l.map fmtRange := by
    intro l
    induction l with
    | nil => intro acc; simp
    | cons p l ihl => intro acc; simp [ihl]
  simpa using haux rs []

/-!
Claim theorems.
-/

/-- C1: for every ascending duplicate-free row sequence, the compression
step of export produces ranges whose day-by-day expansion is exactly the
input sequence, each with start ≤ end, consecutive ranges separated by a
gap of at least two days (hence ascending, non-overlapping, non-adjacent,
and each range maximal), and the empty input yields the empty output. -/
theorem compress_partitions_into_maximal_ranges (rows : List Nat)
    (hasc : List.Chain' (fun a b => a < b) rows) :
    compressRanges ([] : List Nat) = []
    ∧ (compressRanges rows).flatMap expandRange = rows
    ∧ (∀ p ∈ compressRanges rows, p.1 ≤ p.2)
    ∧ List.Chain' gapGe2 (compressRanges rows) := by
  refine ⟨rfl, ?_⟩
  cases rows with
  | nil =>
    refine ⟨rfl, ?_, ?_⟩
    · intro p hp
      simp [compressRanges] at hp
    · simp [compressRanges]
  | cons r rest =>
    obtain ⟨ha, hb, hc, _⟩ := compressGo_spec rest r r (le_refl r) hasc
    refine ⟨?_, hb, hc⟩
    rw [show compressRanges (r :: rest) = compressGo r r rest from rfl, ha,
      show r + 1 - r = 1 by omega]
    simp [List.range']

/-- C1 witness: the properties hold on the concrete ascending input
[3, 4, 5, 8, 9]. -/
theorem compress_partitions_into_maximal_ranges_witness :
    compressRanges ([] : List Nat) = []
    ∧ (compressRanges [3, 4, 5, 8, 9]).flatMap expandRange = [3, 4, 5, 8, 9]
    ∧ (∀ p ∈ compressRanges [3, 4, 5, 8, 9], p.1 ≤ p.2)
    ∧ List.Chain' gapGe2 (compressRanges [3, 4, 5, 8, 9]) :=
  compress_partitions_into_maximal_ranges [3, 4, 5, 8, 9]
    (by simp [List.chain'_cons])

/-- C2: a present input with exactly one "::" separator whose two tokens
parse as dates firstD ≤ lastD yields the inclusive ascending day sequence
from firstD to lastD. -/
theorem parse_two_token_range (today : Nat) (i a b : String) (firstD lastD : Nat)
    (hsplit : strSplitDColon i = [a, b])
    (ha : parseToken a = Except.ok firstD)
    (hb : parseToken b = Except.ok lastD)
    (hle : firstD ≤ lastD) :
    parse_dates_or_default today (some i)
      = Outcome.ok (List.range' firstD (lastD + 1 - firstD)) := by
  have hmax : lastD ≤ maxDate := parseToken_le b lastD hb
  have htok : parseTokens [a, b] = Except.ok [firstD, lastD] := by
    simp [parseTokens, ha, hb]
  simp only [parse_dates_or_default, hsplit, htok]
  unfold walkFrom
  have hw := walkAux_ok (lastD - firstD) (maxDate - firstD) firstD [] (by omega)
  rw [show firstD + (lastD - firstD) = lastD from by omega] at hw
  rw [hw, show lastD - firstD + 1 = lastD + 1 - firstD from by omega]
  simp

/-- C2 witness: parsing "2025-01-01::2025-01-03" yields exactly the three
days 2025-01-01, 2025-01-02, 2025-01-03. -/
theorem parse_two_token_range_witness :
    parse_dates_or_default 0 (some ("2025-01-01::2025-01-03"))
      = Outcome.ok [739557, 739558, 739559] :=
  (parse_two_token_range 0 ("2025-01-01::2025-01-03") ("2025-01-01") ("2025-01-03")
    739557 739559 (by decide) (by decide) (by decide) (by decide)).trans (by decide)

/-- C3 (code bug): on a reversed two-token range the walk of
`parse_dates_or_default` steps forward day by day without ever meeting the
second endpoint; it neither rejects nor swaps, and stops only through the
`succ_opt().unwrap()` panic after exhausting every representable date —
here evaluated at the input "2025-01-02::2025-01-01". -/
theorem parse_reversed_range_panics :
    parse_dates_or_default 0 (some ("2025-01-02::2025-01-01"))
      = Outcome.panic succPanicMsg := by
  have h : parse_dates_or_default 0 (some ("2025-01-02::2025-01-01"))
      = walkAux (maxDate - 739558) 739558 739557 [] := by rfl
  rw [h]
  exact walkAux_reversed (maxDate - 739558) 739558 739557 [] (by omega)

/-- C4 (code bug): confirming an edit whose buffer is malformed crashes the
session: `add_string` unwraps the parse result, so the panic of
`parse_dates_or_default` propagates instead of being shown to the user —
here evaluated on the buffer "notadate". -/
theorem confirm_malformed_buffer_crashes :
    confirmEdit 0 ⟨[], [], 0, some ("notadate"), InputMode.add⟩
      = Except.error dateParsePanicMsg := by
  rfl

/-- C5 counterexample: a view refresh after a mutation does not clamp the
selected index.  Removing the selected second entry leaves a one-entry view
with `selected_index` still 1, outside [0, len-1]. -/
theorem view_refresh_out_of_bounds_cex :
    AppState.remove_selected_string
        ⟨[739557, 739559], ["2025-01-01", "2025-01-03"], 1, none, InputMode.remove⟩
        ("2025-01-03") 0
      = Except.ok ⟨[739557], ["2025-01-01"], 1, none, InputMode.remove⟩
    ∧ ¬ ((1 : Nat) ≤ (["2025-01-01"] : List String).length - 1) :=
  ⟨rfl, by decide⟩

/-- C5 amended: select-previous and select-next preserve the index bound
[0, len-1] and are no-ops on an empty view with index 0, but a view refresh
leaves the selected index unchanged, so after a shrinking mutation it can
lie out of bounds of the new list. -/
theorem selection_moves_clamp_refresh_leaves_index (st : AppState) :
    (selInBounds st → selInBounds st.move_selection_up ∧ selInBounds st.move_selection_down)
    ∧ (st.dates = [] → st.selected_index = 0 →
        st.move_selection_up = st ∧ st.move_selection_down = st)
    ∧ (AppState.update st).selected_index = st.selected_index := by
  refine ⟨?_, ?_, rfl⟩
  · intro hin
    unfold selInBounds at *
    unfold AppState.move_selection_up AppState.move_selection_down
    constructor <;> split_ifs <;> simp_all <;> omega
  · intro hd hi
    have hlen : st.dates.length = 0 := by rw [hd]; rfl
    unfold AppState.move_selection_up AppState.move_selection_down
    rw [if_neg (by omega), if_neg (by omega)]
    exact ⟨rfl, rfl⟩

/-- C5 amended witness: on a concrete two-entry view with index 1, both
moves stay in bounds and a refresh keeps the index. -/
theorem selection_moves_clamp_refresh_leaves_index_witness :
    (selInBounds (AppState.move_selection_up ⟨[], ["a", "b"], 1, none, InputMode.add⟩)
      ∧ selInBounds (AppState.move_selection_down ⟨[], ["a", "b"], 1, none, InputMode.add⟩))
    ∧ (AppState.update ⟨[], ["a", "b"], 1, none, InputMode.add⟩).selected_index = 1 :=
  ⟨(selection_moves_clamp_refresh_leaves_index ⟨[], ["a", "b"], 1, none, InputMode.add⟩).1
      (by decide),
   (selection_moves_clamp_refresh_leaves_index ⟨[], ["a", "b"], 1, none, InputMode.add⟩).2.2⟩

/-- C6 counterexample: confirming a whitespace-only buffer does not keep the
controller in Editing with the same buffer: `take_input` removes the buffer
before the blank check, so the buffer is discarded (input_box becomes none,
i.e. Browsing). -/
theorem confirm_blank_discards_buffer_cex :
    confirmEdit 0 ⟨[], [], 0, some ("   "), InputMode.add⟩
      = Except.ok ⟨[], [], 0, none, InputMode.add⟩
    ∧ (⟨[], [], 0, none, InputMode.add⟩ : AppState).input_box ≠ some ("   ") :=
  ⟨rfl, by decide⟩

/-- C6 amended: confirming an empty or whitespace-only buffer performs no
store mutation and no view refresh, but discards the buffer and returns to
Browsing instead of remaining in Editing. -/
theorem confirm_blank_no_mutation (st : AppState) (input : String) (today : Nat)
    (hbox : st.input_box = some input)
    (hblank : (trimChars input.data).isEmpty = true) :
    confirmEdit today st = Except.ok { st with input_box := none } := by
  unfold confirmEdit
  rw [hbox]
  simp [hblank]

/-- C6 amended witness: a concrete whitespace-only confirm just clears the
buffer. -/
theorem confirm_blank_no_mutation_witness :
    confirmEdit 0 ⟨[739557], ["2025-01-01"], 0, some (" "), InputMode.remove⟩
      = Except.ok ⟨[739557], ["2025-01-01"], 0, none, InputMode.remove⟩ :=
  confirm_blank_no_mutation ⟨[739557], ["2025-01-01"], 0, some (" "), InputMode.remove⟩
    (" ") 0 rfl (by decide)

/-- C7: inserting a date already present in the store is idempotent — the
duplicate-key constraint violation is normalized to a success report and
the store contents are unchanged. -/
theorem add_present_date_idempotent (store : List Nat) (d : Nat) (h : d ∈ store) :
    add_date store d = (store, AddReport.added) := by
  simp [add_date, sqlInsert, h]

/-- C7 witness: re-adding a present date concretely changes nothing and
reports success. -/
theorem add_present_date_idempotent_witness :
    add_date [739557, 739600] 739600 = ([739557, 739600], AddReport.added) :=
  add_present_date_idempotent [739557, 739600] 739600 (by decide)

/-- C8 counterexample: parse("a::b::c") does fail, but with the date-parse
panic of the first malformed token, not with the "Invalid date range"
message: the tokens are parsed eagerly before the token count is checked. -/
theorem three_token_parse_error_message_cex :
    parse_dates_or_default 0 (some ("a::b::c")) = Outcome.panic dateParsePanicMsg
    ∧ dateParsePanicMsg ≠ ("Invalid date range") :=
  ⟨rfl, by decide⟩

/-- C8 amended: an input splitting into zero or at least three tokens always
makes parse fail with a panic; the message is "Invalid date range" when
every token parses as a date (tokens are parsed before the count check, so a
malformed token panics first with its date-parse error). -/
theorem non_range_token_count_panics (today : Nat) (i : String)
    (h : (strSplitDColon i).length = 0 ∨ 3 ≤ (strSplitDColon i).length) :
    (∃ msg, parse_dates_or_default today (some i) = Outcome.panic msg)
    ∧ (∀ v, parseTokens (strSplitDColon i) = Except.ok v →
        parse_dates_or_default today (some i) = Outcome.panic ("Invalid date range")) := by
  cases htok : parseTokens (strSplitDColon i) with
  | error m =>
    constructor
    · exact ⟨m, by simp [parse_dates_or_default, htok]⟩
    · intro v hv
      cases hv
  | ok v =>
    have hlen := parseTokens_length _ v htok
    have hv3 : v.length = 0 ∨ 3 ≤ v.length := by omega
    have hmatch : parse_dates_or_default today (some i)
        = Outcome.panic ("Invalid date range") := by
      simp only [parse_dates_or_default, htok]
      rcases v with _ | ⟨a, _ | ⟨b, _ | ⟨c, t⟩⟩⟩
      · rfl
      · simp at hv3
      · simp at hv3
      · rfl
    exact ⟨⟨_, hmatch⟩, fun v2 _ => hmatch⟩

/-- C8 amended witness: "a::b::c" splits into three tokens and parse fails
with a panic. -/
theorem non_range_token_count_panics_witness :
    (∃ msg, parse_dates_or_default 0 (some ("a::b::c")) = Outcome.panic msg)
    ∧ (∀ v, parseTokens (strSplitDColon ("a::b::c")) = Except.ok v →
        parse_dates_or_default 0 (some ("a::b::c")) = Outcome.panic ("Invalid date range")) :=
  non_range_token_count_panics 0 ("a::b::c") (Or.inr (by decide))

/-- C9: export renders every compressed range as `YYYY-MM-DD` when its start
equals its end and as `YYYY-MM-DD :: YYYY-MM-DD` otherwise; for the store
{2025-01-01, 2025-01-02, 2025-01-03} the export is exactly the single
string "2025-01-01 :: 2025-01-03". -/
theorem export_rendering (rows : List Nat) :
    get_export rows = (compressRanges rows).map
      (fun p => if p.1 = p.2 then fmtDate p.1 else fmtDate p.1 ++ " :: " ++ fmtDate p.2)
    ∧ get_export [toNum 2025 1 1, toNum 2025 1 2, toNum 2025 1 3]
      = ["2025-01-01 :: 2025-01-03"] := by
  constructor
  · rw [show get_export rows = renderRanges (compressRanges rows) from rfl,
      renderRanges_eq_map]
    rfl
  · decide

/-- C10: whenever parse returns normally its result is nonempty, and a
two-token range with equal endpoints yields exactly that one date. -/
theorem parse_ok_nonempty :
    (∀ (today : Nat) (input : Option String) (l : List Nat),
        parse_dates_or_default today input = Outcome.ok l → l ≠ [])
    ∧ (∀ (i a b : String) (firstD today : Nat),
        strSplitDColon i = [a, b] → parseToken a = Except.ok firstD →
        parseToken b = Except.ok firstD →
        parse_dates_or_default today (some i) = Outcome.ok [firstD]) := by
  constructor
  · intro today input l h
    cases input with
    | none =>
      simp only [parse_dates_or_default] at h
      injection h with h
      subst h
      simp
    | some i =>
      simp only [parse_dates_or_default] at h
      cases htok : parseTokens (strSplitDColon i) with
      | error m =>
        rw [htok] at h
        cases h
      | ok v =>
        rw [htok] at h
        rcases v with _ | ⟨a, _ | ⟨b, _ | ⟨c, t⟩⟩⟩
        · cases h
        · injection h with h
          subst h
          simp
        · exact walkAux_ok_ne_nil (maxDate - a) a b [] l h
        · cases h
  · intro i a b firstD today hsplit ha hb
    have htok : parseTokens [a, b] = Except.ok [firstD, firstD] := by
      simp [parseTokens, ha, hb]
    simp only [parse_dates_or_default, hsplit, htok]
    unfold walkFrom
    simpa using walkAux_self (maxDate - firstD) firstD []

/-- C10 witness: a valid single token gives a nonempty result, and the
equal-endpoint range "2025-01-01::2025-01-01" gives exactly that one
date. -/
theorem parse_ok_nonempty_witness :
    ([739557] : List Nat) ≠ []
    ∧ parse_dates_or_default 0 (some ("2025-01-01::2025-01-01")) = Outcome.ok [739557] :=
  ⟨parse_ok_nonempty.1 0 (some ("2025-01-01")) [739557] (by decide),
   parse_ok_nonempty.2 ("2025-01-01::2025-01-01") ("2025-01-01") ("2025-01-01") 739557 0
     (by decide) (by decide) (by decide)⟩

/-!
Executable sanity checks of the model on concrete inputs.
-/

example : toNum 2025 1 1 = 739557 := by decide
example : toNum 2025 1 3 = 739559 := by decide
example : fromNum 739557 = (2025, 1, 1) := by decide
example : fmtDate 739557 = "2025-01-01" := by decide
example : strSplitDColon ("a::b::c") = ["a", "b", "c"] := by decide
example : splitOnChar '-' ("2025-01-01").data = [("2025").data, ("01").data, ("01").data] := by decide
example : trimChars ("  x ").data = [Char.ofNat 120] := by decide
example : digitsToNat ("2025").data = some 2025 := by decide
example : parseToken (" 2025-01-01 ") = Except.ok 739557 := by decide
example : parseToken ("01.02.2025") = Except.ok (toNum 2025 2 1) := by decide
example : parseToken ("notadate") = Except.error dateParsePanicMsg := by decide
example : parse_dates_or_default 0 (some ("2025-01-01")) = Outcome.ok [739557] := by decide
example : parse_dates_or_default 0 none = Outcome.ok [0] := by decide
example : compressRanges [739557, 739558, 739559] = [(739557, 739559)] := by decide
example : get_export [739557, 739558, 739559] = ["2025-01-01 :: 2025-01-03"] := by decide
example : get_export [739557, 739559] = ["2025-01-01", "2025-01-03"] := by decide
example : add_date [739557] 739557 = ([739557], AddReport.added) := by decide
example : remove_date [739557, 739559] 739559 = [739557] := by decide
